import Mathlib

/-!
# Verification of the trip-planner itinerary engine (`src/site/trip.js`)

Shallow embedding of the itinerary data model, the reorder engine, the
persistence adapter and the list↔map synchronizer of `trip.js`, together
with proofs of the spec's testable properties.

JavaScript conventions used by the embedding:
* a possibly-`null`/`NaN` number is `Option ℚ` (`none` = `null`/`undefined`/`NaN`);
* JS truthiness of a number value: `null`, `undefined`, `NaN` and `0` are falsy;
* a missing string field is the empty string (both are falsy in the source's
  truthiness tests, so they are indistinguishable to the code modelled here).
-/

/-- A visit entry stored in `day.locations` (`trip.js`).  Catalog-backed
entries carry only `id`/`time`/`comment`/`mapLink`; custom entries (flag
`custom: true`) additionally store `title`, `city`, `lat`, `lng` inline. -/
structure Entry where
  id : String
  custom : Bool := false
  title : String := ""
  city : String := ""
  time : String := ""
  comment : String := ""
  mapLink : String := ""
  lat : Option ℚ := none
  lng : Option ℚ := none
deriving DecidableEq, Repr

/-- A day of the itinerary: `{ id, label, locations }` (`trip.js`). -/
structure Day where
  id : String
  label : String
  locations : List Entry
deriving DecidableEq, Repr

/-- The aggregate root stored under `STORAGE_KEY`: `{ version, days }`. -/
structure Itinerary where
  version : String
  days : List Day
deriving DecidableEq, Repr

/-- JS truthiness of a number-or-null value: `null`/`undefined`/`NaN` (`none`)
and `0` are falsy. -/
def jsTruthy : Option ℚ → Bool
  | none => false
  | some q => decide (q ≠ 0)

/-- The idiom `v || null` applied to a number-or-null `v` (used for
`parseFloat(...) || null` and `entry.lat || null` in `trip.js`): a falsy
value (including `0`) collapses to `null`. -/
def jsOrNull (v : Option ℚ) : Option ℚ :=
  if jsTruthy v then v else none

/-- The resolved display record returned by `getLocation` in `trip.js`. -/
structure Loc where
  id : String
  title : String
  city : String
  lat : Option ℚ := none
  lng : Option ℚ := none
  isCustom : Bool := false
deriving DecidableEq, Repr

/-- The read-only catalog `allLocations`, keyed by identifier. -/
def Catalog := String → Option Loc

/-- `getLocation(id, entry)` from `trip.js`: a custom entry resolves from its
own inline fields (`entry.title || 'Custom Location'`, `entry.lat || null`,
…); otherwise the catalog is consulted, with a coordinate-free fallback
record when the identifier is unknown. -/
def getLocation (catalog : Catalog) (entry : Entry) : Loc :=
  if entry.custom then
    { id := entry.id
      title := if entry.title = "" then "Custom Location" else entry.title
      city := entry.city
      lat := jsOrNull entry.lat
      lng := jsOrNull entry.lng
      isCustom := true }
  else
    match catalog entry.id with
    | some loc => loc
    | none => { id := entry.id, title := entry.id, city := "" }

/-- The filter `item.loc.lat && item.loc.lng` of `initDayMap`: a visit is
located exactly when both resolved coordinates are truthy. -/
def located (loc : Loc) : Bool :=
  jsTruthy loc.lat && jsTruthy loc.lng

/-! ## Reorder engine (`setupDragAndDrop` drop handler) -/

/-- The model update of the drop handler:
`const [removed] = day.locations.splice(draggedIndex, 1);
 day.locations.splice(newIndex, 0, removed);`.
An out-of-range origin index leaves the list unchanged (it cannot occur,
since `draggedIndex` indexes an existing list row). -/
def moveVisit (fromIdx toIdx : Nat) (l : List Entry) : List Entry :=
  match l.get? fromIdx with
  | none => l
  | some removed => (l.eraseIdx fromIdx).insertIdx toIdx removed

/-- The guarded commit of the drop handler: the model is mutated (one splice
out, one splice in) and one re-render — hence one map rebuild per day — is
triggered only when `draggedIndex !== newIndex`.  Returns the new list and
the number of `render()` calls issued. -/
def dropUpdate (fromIdx toIdx : Nat) (l : List Entry) : List Entry × Nat :=
  if fromIdx ≠ toIdx then (moveVisit fromIdx toIdx l, 1) else (l, 0)

/-- A sequence of drag-and-drop reorders applied in order. -/
def applyMoves (ops : List (Nat × Nat)) (l : List Entry) : List Entry :=
  ops.foldl (fun acc op => moveVisit op.1 op.2 acc) l

/-! ## Itinerary model mutations -/

/-- The entry object pushed by `addLocation` for a catalog identifier
(`{ id, time: '', comment: '', mapLink: '' }`). -/
def newCatalogEntry (locationId : String) : Entry :=
  { id := locationId }

/-- `addLocation(dayId, locationId)` restricted to the target day: appends a
catalog-backed entry unless one with that identifier is already present
(`day.locations.some(entry => entry.id === locationId)`). -/
def addLocation (locationId : String) (day : Day) : Day :=
  if day.locations.any (fun entry => entry.id = locationId) then day
  else { day with locations := day.locations ++ [newCatalogEntry locationId] }

/-- `addCustomLocation(dayId, entry)` restricted to the target day: an
unconditional append. -/
def addCustomLocation (day : Day) (entry : Entry) : Day :=
  { day with locations := day.locations ++ [entry] }

/-- `removeLocation(dayId, locationId)` restricted to the target day:
removes the first entry with the given identifier, no-op when absent. -/
def removeLocation (locationId : String) (day : Day) : Day :=
  match day.locations.findIdx? (fun entry => entry.id = locationId) with
  | none => day
  | some index => { day with locations := day.locations.eraseIdx index }

/-! ## Basic permutation facts about `moveVisit` -/

theorem moveVisit_perm (fromIdx toIdx : Nat) (l : List Entry)
    (h1 : fromIdx < l.length) (h2 : toIdx < l.length) :
    (moveVisit fromIdx toIdx l).Perm l := by
  have hget : l.get? fromIdx = some l[fromIdx] := by
    simp [List.get?_eq_getElem?, List.getElem?_eq_getElem h1]
  unfold moveVisit
  rw [hget]
  have hlen : (l.eraseIdx fromIdx).length = l.length - 1 := by
    simp [List.length_eraseIdx, h1]
  have hto : toIdx ≤ (l.eraseIdx fromIdx).length := by
    omega
  refine (List.perm_insertIdx _ _ hto).trans ?_
  have hmid : List.Perm (l[fromIdx] :: (l.take fromIdx ++ l.drop (fromIdx + 1)))
      (l.take fromIdx ++ l[fromIdx] :: l.drop (fromIdx + 1)) :=
    List.perm_middle.symm
  rw [List.eraseIdx_eq_take_drop_succ]
  refine hmid.trans ?_
  rw [List.cons_getElem_drop_succ, List.take_append_drop]

theorem moveVisit_length (fromIdx toIdx : Nat) (l : List Entry)
    (h1 : fromIdx < l.length) (h2 : toIdx < l.length) :
    (moveVisit fromIdx toIdx l).length = l.length :=
  (moveVisit_perm fromIdx toIdx l h1 h2).length_eq

theorem applyMoves_perm (ops : List (Nat × Nat)) (l : List Entry)
    (hops : ∀ op ∈ ops, op.1 < l.length ∧ op.2 < l.length) :
    (applyMoves ops l).Perm l := by
  induction ops generalizing l with
  | nil => exact List.Perm.refl l
  | cons op ops ih =>
    have hop := hops op (List.mem_cons_self op ops)
    have hstep : (moveVisit op.1 op.2 l).Perm l :=
      moveVisit_perm op.1 op.2 l hop.1 hop.2
    have hrest : ∀ q ∈ ops, q.1 < (moveVisit op.1 op.2 l).length ∧
        q.2 < (moveVisit op.1 op.2 l).length := by
      intro q hq
      rw [hstep.length_eq]
      exact hops q (List.mem_cons_of_mem op hq)
    exact (ih (moveVisit op.1 op.2 l) hrest).trans hstep

/-- Erasing the moved visit at its new index undoes the move exactly: the
remaining visits are the original sequence with the moved visit deleted, in
the original relative order. -/
theorem moveVisit_eraseIdx (fromIdx toIdx : Nat) (l : List Entry)
    (h1 : fromIdx < l.length) :
    (moveVisit fromIdx toIdx l).eraseIdx toIdx = l.eraseIdx fromIdx := by
  have hget : l.get? fromIdx = some l[fromIdx] := by
    simp [List.get?_eq_getElem?, List.getElem?_eq_getElem h1]
  unfold moveVisit
  rw [hget]
  exact List.eraseIdx_insertIdx toIdx (l.eraseIdx fromIdx)

/-- The moved visit ends up exactly at the target index. -/
theorem moveVisit_target (fromIdx toIdx : Nat) (l : List Entry)
    (h1 : fromIdx < l.length) (h2 : toIdx < l.length) :
    (moveVisit fromIdx toIdx l).get? toIdx = l.get? fromIdx := by
  have hget : l.get? fromIdx = some l[fromIdx] := by
    simp [List.get?_eq_getElem?, List.getElem?_eq_getElem h1]
  unfold moveVisit
  rw [hget]
  have hm : (l.eraseIdx fromIdx).length = l.length - 1 := by
    simp [List.length_eraseIdx, h1]
  have hle : toIdx ≤ (l.eraseIdx fromIdx).length := by omega
  have hlt : toIdx < ((l.eraseIdx fromIdx).insertIdx toIdx l[fromIdx]).length := by
    rw [List.length_insertIdx _ _ hle]
    omega
  rw [List.get?_eq_getElem?, List.getElem?_eq_getElem hlt,
    List.getElem_insertIdx_self (l.eraseIdx fromIdx) l[fromIdx] toIdx hle]

theorem addLocation_of_present (day : Day) (locId : String)
    (h : day.locations.any (fun entry => entry.id = locId) = true) :
    addLocation locId day = day := by
  simp only [addLocation, h, if_true]

theorem addLocation_of_absent (day : Day) (locId : String)
    (h : day.locations.any (fun entry => entry.id = locId) = false) :
    addLocation locId day
      = { day with locations := day.locations ++ [newCatalogEntry locId] } := by
  simp only [addLocation, h, Bool.false_eq_true, if_false]

/-- C1: every drag-and-drop reorder sequence permutes the day's entries, so
the multiset of identifiers is unchanged and uniqueness is preserved; a
single `moveVisit` moreover preserves the relative order of every visit
other than the moved one (erasing the moved visit at its new index yields
exactly the original sequence with it erased at its old index) and places
the moved visit at the target index.  The remaining sequence mutations also
preserve the others' relative order and identifier uniqueness:
`addLocation` is a no-op or a single append; `removeLocation` yields a
sublist (the surviving visits in their original order); `addCustomLocation`
is a single append, unique provided the generated identifier is fresh.
(`editVisit` mutates fields of one entry in place and never touches the
sequence or its identifiers.) -/
theorem c1_mutations_preserve_ids (l : List Entry) (ops : List (Nat × Nat))
    (hops : ∀ op ∈ ops, op.1 < l.length ∧ op.2 < l.length) :
    ((applyMoves ops l).map Entry.id).Perm (l.map Entry.id)
    ∧ ((l.map Entry.id).Nodup → ((applyMoves ops l).map Entry.id).Nodup)
    ∧ (∀ (fromIdx toIdx : Nat) (l' : List Entry), fromIdx < l'.length →
        (moveVisit fromIdx toIdx l').eraseIdx toIdx = l'.eraseIdx fromIdx)
    ∧ (∀ (fromIdx toIdx : Nat) (l' : List Entry), fromIdx < l'.length →
        toIdx < l'.length →
        (moveVisit fromIdx toIdx l').get? toIdx = l'.get? fromIdx)
    ∧ (∀ day : Day, ∀ locId : String,
        ((addLocation locId day).locations = day.locations
          ∨ (addLocation locId day).locations
              = day.locations ++ [newCatalogEntry locId])
        ∧ ((day.locations.map Entry.id).Nodup →
            (((addLocation locId day).locations).map Entry.id).Nodup))
    ∧ (∀ day : Day, ∀ locId : String,
        List.Sublist (removeLocation locId day).locations day.locations
        ∧ ((day.locations.map Entry.id).Nodup →
            (((removeLocation locId day).locations).map Entry.id).Nodup))
    ∧ (∀ (day : Day) (e : Entry),
        (addCustomLocation day e).locations = day.locations ++ [e]
        ∧ ((day.locations.map Entry.id).Nodup →
            (∀ x ∈ day.locations, x.id ≠ e.id) →
            (((addCustomLocation day e).locations).map Entry.id).Nodup)) := by
  have hperm : ((applyMoves ops l).map Entry.id).Perm (l.map Entry.id) :=
    (applyMoves_perm ops l hops).map Entry.id
  refine ⟨hperm, fun hnd => (hperm.nodup_iff).mpr hnd,
    fun fromIdx toIdx l' h1 => moveVisit_eraseIdx fromIdx toIdx l' h1,
    fun fromIdx toIdx l' h1 h2 => moveVisit_target fromIdx toIdx l' h1 h2,
    ?_, ?_, ?_⟩
  · intro day locId
    rcases hb : day.locations.any (fun entry => entry.id = locId) with _ | _
    · rw [addLocation_of_absent day locId hb]
      refine ⟨Or.inr rfl, ?_⟩
      intro hnd
      have habsent : ∀ e ∈ day.locations, ¬ e.id = locId := by
        intro e he
        have := List.any_eq_false.mp hb e he
        simpa using this
      simp only [List.map_append, List.map_cons, List.map_nil]
      rw [List.nodup_append]
      refine ⟨hnd, List.nodup_singleton _, ?_⟩
      intro a ha hb'
      simp only [newCatalogEntry, List.mem_singleton] at hb'
      subst hb'
      obtain ⟨e, he, hid⟩ := List.mem_map.mp ha
      exact habsent e he hid
    · rw [addLocation_of_present day locId hb]
      exact ⟨Or.inl rfl, fun hnd => hnd⟩
  · intro day locId
    rcases hidx : day.locations.findIdx? (fun entry => entry.id = locId)
      with _ | idx
    · simp only [removeLocation, hidx]
      exact ⟨List.Sublist.refl _, fun hnd => hnd⟩
    · simp only [removeLocation, hidx]
      refine ⟨List.eraseIdx_sublist _ idx, fun hnd => ?_⟩
      exact hnd.sublist ((List.eraseIdx_sublist _ idx).map Entry.id)
  · intro day e
    refine ⟨rfl, fun hnd hfresh => ?_⟩
    simp only [addCustomLocation, List.map_append, List.map_cons,
      List.map_nil]
    rw [List.nodup_append]
    refine ⟨hnd, List.nodup_singleton _, ?_⟩
    intro a ha hb'
    simp only [List.mem_singleton] at hb'
    subst hb'
    obtain ⟨x, hx, hxid⟩ := List.mem_map.mp ha
    exact hfresh x hx hxid

/-- C1 witness: a concrete two-element day reordered by one drag. -/
theorem c1_mutations_preserve_ids_witness :
    ((applyMoves [(0, 1)] [newCatalogEntry "a", newCatalogEntry "b"]).map
        Entry.id).Perm
      ([newCatalogEntry "a", newCatalogEntry "b"].map Entry.id) :=
  (c1_mutations_preserve_ids [newCatalogEntry "a", newCatalogEntry "b"]
    [(0, 1)] (by decide)).1

/-- C2: a drop whose resulting index differs from the origin index commits
exactly the single splice-out/splice-in `moveVisit` and triggers exactly one
re-render (one map rebuild for the day); a drop at the origin index changes
nothing.  Concretely, dragging the 3rd of 5 visits to the 1st position
yields the order [3,1,2,4,5] by original identifier. -/
theorem c2_drop_single_splice (l : List Entry) (fromIdx toIdx : Nat)
    (hne : fromIdx ≠ toIdx) :
    dropUpdate fromIdx toIdx l = (moveVisit fromIdx toIdx l, 1)
    ∧ (∀ l' i, dropUpdate i i l' = (l', 0))
    ∧ ((dropUpdate 2 0 [newCatalogEntry "L1", newCatalogEntry "L2",
          newCatalogEntry "L3", newCatalogEntry "L4",
          newCatalogEntry "L5"]).1.map Entry.id
        = ["L3", "L1", "L2", "L4", "L5"]) := by
  refine ⟨by simp [dropUpdate, hne], fun l' i => by simp [dropUpdate], ?_⟩
  decide

/-- C2 witness: the theorem applied at origin index 2 and target index 0. -/
theorem c2_drop_single_splice_witness :
    dropUpdate 2 0 [newCatalogEntry "L1", newCatalogEntry "L2",
        newCatalogEntry "L3", newCatalogEntry "L4", newCatalogEntry "L5"]
      = (moveVisit 2 0 [newCatalogEntry "L1", newCatalogEntry "L2",
          newCatalogEntry "L3", newCatalogEntry "L4", newCatalogEntry "L5"],
         1) :=
  (c2_drop_single_splice _ 2 0 (by decide)).1

/-- C3: `addLocation` is idempotent on duplicates — a second call with the
same identifier leaves the day unchanged — and a first call with an absent
identifier appends exactly one entry. -/
theorem c3_addLocation_idempotent (day : Day) (locId : String) :
    addLocation locId (addLocation locId day) = addLocation locId day
    ∧ (day.locations.any (fun entry => entry.id = locId) = false →
        (addLocation locId day).locations
          = day.locations ++ [newCatalogEntry locId]) := by
  constructor
  · rcases hb : day.locations.any (fun entry => entry.id = locId) with _ | _
    · have h1 := addLocation_of_absent day locId hb
      have h2 : (addLocation locId day).locations.any
          (fun entry => entry.id = locId) = true := by
        rw [h1]
        simp [newCatalogEntry]
      exact addLocation_of_present _ locId h2
    · rw [addLocation_of_present day locId hb, addLocation_of_present day locId hb]
  · intro hmem
    rw [addLocation_of_absent day locId hmem]

/-- C3 witness: adding the same catalog identifier twice to an empty day. -/
theorem c3_addLocation_idempotent_witness :
    addLocation "uffizi" (addLocation "uffizi" ⟨"day-1", "Day 1", []⟩)
      = addLocation "uffizi" ⟨"day-1", "Day 1", []⟩ :=
  (c3_addLocation_idempotent ⟨"day-1", "Day 1", []⟩ "uffizi").1

/-! ## Persistence adapter (`loadTripData` / `saveTripData`)

The store under `STORAGE_KEY` is modelled as `Option (Option Itinerary)`:
`none` = no blob stored, `some none` = a stored blob that `JSON.parse`
rejects, `some (some it)` = a well-formed blob whose parse is `it`
(`JSON.stringify`/`JSON.parse` round-trip plain data objects verbatim). -/

/-- The persisted blob under `STORAGE_KEY`. -/
def StoredBlob := Option (Option Itinerary)

/-- `loadTripData` after the built-in data has been parsed: consult the
stored blob; a parse failure is caught with a warning; a version mismatch
falls back to the built-in data with a warning; otherwise the parsed blob is
returned.  Result: the itinerary used, paired with the `console.warn`
messages emitted. -/
def loadTripData (builtIn : Itinerary) : StoredBlob → Itinerary × List String
  | none => (builtIn, [])
  | some none => (builtIn, ["Could not parse stored trip data"])
  | some (some parsed) =>
    if parsed.version = builtIn.version then (parsed, [])
    else (builtIn, ["Trip data version mismatch, using built-in data"])

/-- `saveTripData`: `if (!tripData) return;` then
`localStorage.setItem(STORAGE_KEY, JSON.stringify(tripData))` — the
`setItem` call is NOT wrapped in try/catch, so a failing write (quota
exceeded, storage disabled) raises to the caller.  `writeOk` models whether
the underlying `setItem` succeeds; the result is the new store contents, or
the uncaught storage exception. -/
def saveTripData (tripData : Option Itinerary) (writeOk : Bool)
    (store : StoredBlob) : Except String StoredBlob :=
  match tripData with
  | none => .ok store
  | some it => if writeOk then .ok (some (some it)) else .error "QuotaExceededError"

/-- C4: round-trip — saving a model and loading it back with an unchanged
schema version returns the very same model (identical days in identical
order, identical visit entries), with no warning emitted. -/
theorem c4_save_load_roundtrip (model builtIn : Itinerary) (store : StoredBlob)
    (hversion : model.version = builtIn.version) :
    (saveTripData (some model) true store).map
        (fun st => loadTripData builtIn st)
      = .ok (model, []) := by
  simp [saveTripData, loadTripData, Except.map, hversion]

/-- C4 witness: a concrete one-day itinerary round-tripped. -/
theorem c4_save_load_roundtrip_witness :
    (saveTripData (some ⟨"v2", [⟨"day-1", "Day 1", [newCatalogEntry "uffizi"]⟩]⟩)
        true none).map
        (fun st => loadTripData ⟨"v2", []⟩ st)
      = .ok (⟨"v2", [⟨"day-1", "Day 1", [newCatalogEntry "uffizi"]⟩]⟩, []) :=
  c4_save_load_roundtrip ⟨"v2", [⟨"day-1", "Day 1", [newCatalogEntry "uffizi"]⟩]⟩
    ⟨"v2", []⟩ none rfl

/-- C5 counterexample: the claim "save is a best-effort no-op [on storage
failure] … neither raising an error to the caller" is false — `saveTripData`
calls `localStorage.setItem` outside any try/catch, so a failing write
surfaces as an uncaught exception. -/
theorem c5_save_failure_raises :
    saveTripData (some ⟨"v2", []⟩) false none = .error "QuotaExceededError" :=
  rfl

/-- C5 amended: load failures are contained — a malformed stored blob is
recovered by falling back to the built-in data with a logged warning, never
an error — but save is not: a failing underlying write raises the storage
exception to `saveTripData`'s caller uncaught. -/
theorem c5_load_contained_save_raises :
    (∀ builtIn : Itinerary,
      loadTripData builtIn (some none)
        = (builtIn, ["Could not parse stored trip data"]))
    ∧ (∀ (it : Itinerary) (store : StoredBlob),
      saveTripData (some it) false store = .error "QuotaExceededError") := by
  exact ⟨fun builtIn => rfl, fun it store => rfl⟩

/-- C6: on schema-version mismatch, `loadTripData` discards the stale
persisted blob wholesale — the result is exactly the built-in copy, with no
field-level merge — and a version-mismatch warning is logged. -/
theorem c6_version_mismatch_discards (builtIn parsed : Itinerary)
    (hversion : parsed.version ≠ builtIn.version) :
    loadTripData builtIn (some (some parsed))
      = (builtIn, ["Trip data version mismatch, using built-in data"]) := by
  simp [loadTripData, hversion]

/-- C6 witness: a stale v1 blob against v2 built-in data. -/
theorem c6_version_mismatch_discards_witness :
    loadTripData ⟨"v2", []⟩ (some (some ⟨"v1", [⟨"day-1", "Stale", []⟩]⟩))
      = (⟨"v2", []⟩, ["Trip data version mismatch, using built-in data"]) :=
  c6_version_mismatch_discards ⟨"v2", []⟩ ⟨"v1", [⟨"day-1", "Stale", []⟩]⟩
    (by decide)

/-! ## Data-entry modal flow (`showEditLocationModal`, `showAddCustomLocationModal`)

The modal input fields are modelled by their values at save time: string
fields as `String`, the two `parseFloat`-ed coordinate fields as `Option ℚ`
(`none` = the empty/non-numeric input whose `parseFloat` is `NaN`). -/

/-- JS `String.prototype.trim()`: strip leading and trailing whitespace. -/
def strTrim (s : String) : String :=
  ⟨((s.data.dropWhile Char.isWhitespace).reverse.dropWhile
      Char.isWhitespace).reverse⟩

/-- The `save()` closure of `showEditLocationModal`: for a custom entry, a
blank (post-trim) name aborts with no mutation (focus returns to the name
field); otherwise name/city/coordinates are written back, each coordinate as
`parseFloat(...) || null`.  Time/note/map-link are written for every entry.
`none` = rejected (no mutation), `some e` = the updated entry. -/
def editSave (entry : Entry) (titleIn cityIn : String) (latIn lngIn : Option ℚ)
    (timeIn commentIn mapLinkIn : String) : Option Entry :=
  if entry.custom then
    let title := strTrim titleIn
    if title = "" then none
    else some { entry with
      title := title
      city := strTrim cityIn
      lat := jsOrNull latIn
      lng := jsOrNull lngIn
      time := timeIn
      comment := commentIn
      mapLink := mapLinkIn }
  else some { entry with time := timeIn, comment := commentIn, mapLink := mapLinkIn }

/-- The `save()` closure of `showAddCustomLocationModal` composed with its
fresh-identifier generation: a blank (post-trim) name aborts with no
mutation; otherwise the new custom entry is built with identifier
`'custom-' + Date.now()` (`now` is the clock reading). -/
def addCustomSave (titleIn cityIn timeIn commentIn mapLinkIn : String)
    (latIn lngIn : Option ℚ) (now : Nat) : Option Entry :=
  let title := strTrim titleIn
  if title = "" then none
  else some
    { id := "custom-" ++ toString now
      custom := true
      title := title
      city := strTrim cityIn
      time := timeIn
      comment := strTrim commentIn
      mapLink := strTrim mapLinkIn
      lat := jsOrNull latIn
      lng := jsOrNull lngIn }

/-- The spec's both-or-neither coordinate invariant on a stored entry. -/
def bothOrNeither (e : Entry) : Bool :=
  (e.lat.isSome && e.lng.isSome) || (e.lat.isNone && e.lng.isNone)

/-- C7 counterexample: editing a custom visit with only a latitude supplied
stores `lat = 43`, `lng = null` — a stored entry violating the
both-or-neither coordinate invariant the claim asserts for every mutation. -/
theorem c7_half_coordinate_stored :
    (editSave { id := "custom-1", custom := true } "Cafe" "" (some 43) none
        "" "" "").map bothOrNeither = some false := by
  rfl

/-- C7 amended: mutations do not enforce both-or-neither on the stored
fields — `editVisit`/`addCustomVisit` with exactly one coordinate supplied
store that coordinate alongside `null` — but such a partially-supplied visit
is never *located*: coordinate resolution (`getLocation`) and the map filter
require both coordinates truthy, so it gets no marker. -/
theorem c7_one_sided_never_located (catalog : Catalog) (entry e' : Entry)
    (titleIn cityIn timeIn commentIn mapLinkIn : String)
    (latIn lngIn : Option ℚ)
    (hone : latIn = none ∨ lngIn = none)
    (hcustom : entry.custom = true) :
    (editSave entry titleIn cityIn latIn lngIn timeIn commentIn mapLinkIn
        = some e' → located (getLocation catalog e') = false)
    ∧ (∀ now, addCustomSave titleIn cityIn timeIn commentIn mapLinkIn
        latIn lngIn now = some e' → located (getLocation catalog e') = false) := by
  constructor
  · intro hsave
    by_cases htitle : strTrim titleIn = ""
    · simp [editSave, hcustom, htitle] at hsave
    · simp only [editSave, hcustom, if_true, htitle, if_false,
        Option.some.injEq] at hsave
      subst hsave
      rcases hone with h | h <;>
        simp [located, getLocation, hcustom, jsOrNull, jsTruthy, h]
  · intro now hsave
    by_cases htitle : strTrim titleIn = ""
    · simp [addCustomSave, htitle] at hsave
    · simp only [addCustomSave, htitle, if_false, Option.some.injEq] at hsave
      subst hsave
      rcases hone with h | h <;>
        simp [located, getLocation, jsOrNull, jsTruthy, h]

/-- C7 amended witness: a custom visit edited with only a latitude is
unlocated. -/
theorem c7_one_sided_never_located_witness :
    editSave { id := "custom-1", custom := true } "Cafe" "" (some 43) none
        "" "" ""
      = some { id := "custom-1", custom := true, title := "Cafe",
               lat := some 43 }
    ∧ located (getLocation (fun _ => none)
        { id := "custom-1", custom := true, title := "Cafe",
          lat := some 43 }) = false := by
  refine ⟨by rfl, ?_⟩
  exact (c7_one_sided_never_located (fun _ => none)
      { id := "custom-1", custom := true }
      { id := "custom-1", custom := true, title := "Cafe", lat := some 43 }
      "Cafe" "" "" "" "" (some 43) none (Or.inr rfl) rfl).1 (by rfl)

/-- C8: `addCustomVisit` requires a non-empty trimmed display name — a blank
name is rejected with no entry built, hence no mutation of any day — and a
non-blank name builds exactly one custom entry carrying the freshly
generated `custom-<now>` identifier, which `addCustomLocation` appends at
the end of the target day. -/
theorem c8_addCustomVisit (titleIn cityIn timeIn commentIn mapLinkIn : String)
    (latIn lngIn : Option ℚ) (now : Nat) :
    (strTrim titleIn = "" →
      addCustomSave titleIn cityIn timeIn commentIn mapLinkIn latIn lngIn now
        = none)
    ∧ (strTrim titleIn ≠ "" →
      ∃ e : Entry,
        addCustomSave titleIn cityIn timeIn commentIn mapLinkIn latIn lngIn now
          = some e
        ∧ e.custom = true
        ∧ e.id = "custom-" ++ toString now
        ∧ e.title = strTrim titleIn
        ∧ ∀ day : Day,
            (addCustomLocation day e).locations = day.locations ++ [e]) := by
  constructor
  · intro htitle
    simp [addCustomSave, htitle]
  · intro htitle
    refine ⟨{ id := "custom-" ++ toString now
              custom := true
              title := strTrim titleIn
              city := strTrim cityIn
              time := timeIn
              comment := strTrim commentIn
              mapLink := strTrim mapLinkIn
              lat := jsOrNull latIn
              lng := jsOrNull lngIn },
      ?_, rfl, rfl, rfl, fun day => rfl⟩
    simp [addCustomSave, htitle]

/-- C8 witness: a blank name is rejected, a real name is appended. -/
theorem c8_addCustomVisit_witness :
    addCustomSave "   " "" "" "" "" none none 17 = none
    ∧ ∃ e : Entry,
        addCustomSave "Trattoria" "" "" "" "" none none 17 = some e
        ∧ e.custom = true
        ∧ e.id = "custom-" ++ toString 17
        ∧ e.title = strTrim "Trattoria"
        ∧ ∀ day : Day,
            (addCustomLocation day e).locations = day.locations ++ [e] :=
  ⟨(c8_addCustomVisit "   " "" "" "" "" none none 17).1 (by rfl),
   (c8_addCustomVisit "Trattoria" "" "" "" "" none none 17).2 (by decide)⟩

/-! ## List↔Map synchronizer (`initDayMap`, `highlightMapMarker`)

`initDayMap` builds `locsWithIndex` — the located visits of a day, each
paired with its original sequence index — then places one marker per element
(stored sparsely at `dayMarkers[day.id][item.originalIndex]`), draws a
polyline between each pair of consecutive elements, and fits the viewport to
the element coordinates. -/

/-- `day.locations.map((entry, idx) => ({loc: getLocation(entry.id, entry),
originalIndex: idx})).filter(item => item.loc.lat && item.loc.lng)`. -/
def locsWithIndex (catalog : Catalog) (locations : List Entry) :
    List (Loc × Nat) :=
  ((locations.enum).map (fun p => (getLocation catalog p.2, p.1))).filter
    (fun item => located item.1)

/-- The sparse per-day marker registry `dayMarkers[day.id]`: the marker at
original index `index`, if any (`dayMarkers[day.id][item.originalIndex] =
marker` is run once per located item, and original indices are distinct, so
the slot holds the unique located item at that index). -/
def markersOf (catalog : Catalog) (locations : List Entry) :
    Nat → Option Loc :=
  fun index =>
    ((locsWithIndex catalog locations).find?
      (fun item => item.2 = index)).map Prod.fst

/-- `highlightMapMarker(dayId, index, highlight)` acting on the per-index
marker highlight state: `if (!markers || !markers[index]) return;` — a
missing marker slot means no effect; otherwise exactly the slot at `index`
is set to `highlight`. -/
def highlightMapMarker (markers : Nat → Option Loc) (index : Nat)
    (highlight : Bool) (state : Nat → Bool) : Nat → Bool :=
  match markers index with
  | none => state
  | some _ => fun j => if j = index then highlight else state j

/-- The consecutive pairs `(locsWithIndex[i], locsWithIndex[i+1])` between
which `initDayMap` draws a connector polyline. -/
def routeSegments (catalog : Catalog) (locations : List Entry) :
    List ((Loc × Nat) × (Loc × Nat)) :=
  (locsWithIndex catalog locations).zip (locsWithIndex catalog locations).tail

/-- The coordinate list handed to `L.latLngBounds` for the viewport fit. -/
def boundsPoints (catalog : Catalog) (locations : List Entry) :
    List (Option ℚ × Option ℚ) :=
  (locsWithIndex catalog locations).map (fun item => (item.1.lat, item.1.lng))

theorem le_snd_of_mem_mapped_enumFrom (catalog : Catalog) (tl : List Entry)
    (m : Nat) (x : Loc × Nat)
    (hx : x ∈ (tl.enumFrom m).map (fun p => (getLocation catalog p.2, p.1))) :
    m ≤ x.2 := by
  obtain ⟨p, hp, rfl⟩ := List.mem_map.mp hx
  exact List.le_fst_of_mem_enumFrom hp

theorem find?_filtered_enumFrom (catalog : Catalog) :
    ∀ (ls : List Entry) (n i : Nat) (e : Entry), ls.get? i = some e →
    ((((ls.enumFrom n).map (fun p => (getLocation catalog p.2, p.1))).filter
        (fun item => located item.1)).find? (fun item => item.2 = n + i))
      = (if located (getLocation catalog e)
         then some (getLocation catalog e, n + i) else none) := by
  intro ls
  induction ls with
  | nil => intro n i e hget; simp at hget
  | cons a tl ih =>
    intro n i e hget
    rcases i with _ | j
    · simp only [List.get?_cons_zero, Option.some.injEq] at hget
      subst hget
      rcases hloc : located (getLocation catalog a) with _ | _
      · simp only [List.enumFrom_cons, List.map_cons, List.filter_cons,
          hloc, Bool.false_eq_true, if_false]
        rw [List.find?_eq_none]
        intro x hx
        have := le_snd_of_mem_mapped_enumFrom catalog tl (n + 1) x
          (List.mem_of_mem_filter hx)
        simp only [decide_eq_true_eq]
        omega
      · simp only [List.enumFrom_cons, List.map_cons, List.filter_cons, hloc,
          if_true]
        rw [List.find?_cons_of_pos _ (by simp)]
        simp [hloc]
    · have hget' : tl.get? j = some e := by simpa using hget
      have hkey : n + (j + 1) = (n + 1) + j := by omega
      rcases hloc : located (getLocation catalog a) with _ | _
      · simp only [List.enumFrom_cons, List.map_cons, List.filter_cons,
          hloc, Bool.false_eq_true, if_false]
        rw [hkey]
        exact ih (n + 1) j e hget'
      · simp only [List.enumFrom_cons, List.map_cons, List.filter_cons, hloc,
          if_true]
        rw [List.find?_cons_of_neg _ (by simp), hkey]
        exact ih (n + 1) j e hget'

theorem find?_locsWithIndex (catalog : Catalog) (ls : List Entry) (i : Nat)
    (e : Entry) (hget : ls.get? i = some e) :
    (locsWithIndex catalog ls).find? (fun item => item.2 = i)
      = (if located (getLocation catalog e)
         then some (getLocation catalog e, i) else none) := by
  have h := find?_filtered_enumFrom catalog ls 0 i e hget
  rw [Nat.zero_add] at h
  exact h

theorem markersOf_eq (catalog : Catalog) (ls : List Entry) (i : Nat)
    (e : Entry) (hget : ls.get? i = some e) :
    markersOf catalog ls i
      = (if located (getLocation catalog e)
         then some (getLocation catalog e) else none) := by
  unfold markersOf
  rw [find?_locsWithIndex catalog ls i e hget]
  rcases hloc : located (getLocation catalog e) with _ | _ <;> simp [hloc]

/-- C9: hover synchronization is index-exact.  Hovering list row `i` of a
day whose visit at index `i` is located toggles the highlight state of
marker `i` and of no other marker; when the visit at index `i` is unlocated
there is no marker slot at `i` and the hover has no marker-side effect at
all. -/
theorem c9_hover_sync (catalog : Catalog) (ls : List Entry) (i : Nat)
    (e : Entry) (state : Nat → Bool) (hl : Bool)
    (hget : ls.get? i = some e) :
    (located (getLocation catalog e) = true →
      highlightMapMarker (markersOf catalog ls) i hl state i = hl
      ∧ ∀ j, j ≠ i →
        highlightMapMarker (markersOf catalog ls) i hl state j = state j)
    ∧ (located (getLocation catalog e) = false →
      highlightMapMarker (markersOf catalog ls) i hl state = state) := by
  have hm := markersOf_eq catalog ls i e hget
  constructor
  · intro hloc
    rw [hloc, if_pos rfl] at hm
    constructor
    · simp [highlightMapMarker, hm]
    · intro j hj
      simp [highlightMapMarker, hm, hj]
  · intro hloc
    rw [hloc] at hm
    simp only [Bool.false_eq_true, if_false] at hm
    simp [highlightMapMarker, hm]

/-- C9 witness: a one-visit day with coordinates (1, 2); hovering row 0
highlights marker 0 and leaves slot 1 untouched. -/
theorem c9_hover_sync_witness :
    highlightMapMarker
        (markersOf (fun _ => none)
          [{ id := "custom-1", custom := true, lat := some 1, lng := some 2 }])
        0 true (fun _ => false) 0 = true
    ∧ highlightMapMarker
        (markersOf (fun _ => none)
          [{ id := "custom-1", custom := true, lat := some 1, lng := some 2 }])
        0 true (fun _ => false) 1 = false := by
  have h := (c9_hover_sync (fun _ => none)
      [{ id := "custom-1", custom := true, lat := some 1, lng := some 2 }] 0
      { id := "custom-1", custom := true, lat := some 1, lng := some 2 }
      (fun _ => false) true rfl).1 (by decide)
  exact ⟨h.1, h.2 1 (by decide)⟩

/-- C10: a visit whose stored latitude or longitude is numerically `0` — on
the entry itself for a custom visit, or in the catalog record for a
catalog-backed one — is treated as unlocated, because the map filter tests
truthiness (`item.loc.lat && item.loc.lng`) rather than presence: it is
excluded from `locsWithIndex`, receives no marker slot, appears at neither
end of any connector segment, and contributes nothing to the viewport
bounds. -/
theorem c10_zero_coordinate_unlocated (catalog : Catalog) (ls : List Entry)
    (i : Nat) (e : Entry) (hget : ls.get? i = some e)
    (hzero : (e.custom = true ∧ (e.lat = some 0 ∨ e.lng = some 0))
      ∨ (e.custom = false ∧ ∃ cl, catalog e.id = some cl
          ∧ (cl.lat = some 0 ∨ cl.lng = some 0))) :
    located (getLocation catalog e) = false
    ∧ markersOf catalog ls i = none
    ∧ (∀ item ∈ locsWithIndex catalog ls, item.2 ≠ i)
    ∧ (∀ seg ∈ routeSegments catalog ls, seg.1.2 ≠ i ∧ seg.2.2 ≠ i)
    ∧ boundsPoints catalog ls
        = ((locsWithIndex catalog ls).filter (fun item => item.2 ≠ i)).map
            (fun item => (item.1.lat, item.1.lng)) := by
  have hloc : located (getLocation catalog e) = false := by
    rcases hzero with ⟨hc, h | h⟩ | ⟨hc, cl, hcl, h | h⟩
    · simp [located, getLocation, hc, jsOrNull, jsTruthy, h]
    · simp [located, getLocation, hc, jsOrNull, jsTruthy, h]
    · simp [located, getLocation, hc, hcl, jsTruthy, h]
    · simp [located, getLocation, hc, hcl, jsTruthy, h]
  have hf := find?_locsWithIndex catalog ls i e hget
  rw [hloc] at hf
  simp only [Bool.false_eq_true, if_false] at hf
  have hmemb : ∀ item ∈ locsWithIndex catalog ls, item.2 ≠ i := by
    intro item hmem
    have := List.find?_eq_none.mp hf item hmem
    simpa using this
  refine ⟨hloc, ?_, hmemb, ?_, ?_⟩
  · unfold markersOf
    rw [hf]
    rfl
  · intro seg hseg
    obtain ⟨s1, s2⟩ := seg
    obtain ⟨h1, h2⟩ := List.of_mem_zip hseg
    exact ⟨hmemb s1 h1, hmemb s2 (List.mem_of_mem_tail h2)⟩
  · have hfil : (locsWithIndex catalog ls).filter (fun item => item.2 ≠ i)
        = locsWithIndex catalog ls :=
      List.filter_eq_self.mpr (fun a ha => by simpa using hmemb a ha)
    rw [hfil]
    rfl

/-- C10 witness: a custom visit stored with latitude exactly 0 and a real
longitude is unlocated and has no marker slot. -/
theorem c10_zero_coordinate_unlocated_witness :
    located (getLocation (fun _ => none)
        { id := "custom-1", custom := true, lat := some 0, lng := some 5 })
      = false
    ∧ markersOf (fun _ => none)
        [{ id := "custom-1", custom := true, lat := some 0, lng := some 5 }]
        0 = none := by
  have h := c10_zero_coordinate_unlocated (fun _ => none)
    [{ id := "custom-1", custom := true, lat := some 0, lng := some 5 }] 0
    { id := "custom-1", custom := true, lat := some 0, lng := some 5 }
    rfl (Or.inl ⟨rfl, Or.inl rfl⟩)
  exact ⟨h.1, h.2.1⟩
